import Mathlib

/-!
Verification development for the RECORPSOPTOOL multi-backend SOP
synchronization layer.  The definitions below are a shallow embedding of
the JavaScript source files:

  * github-repo-storage.js  (file-host adapter over the GitHub contents API)
  * cloud-run-backend.js    (proxy service over a service-account Drive folder)
  * the Google Drive browser adapter (folder-store adapter, OAuth)
  * shared-sop-api.js       (thin-proxy adapter)

JSON documents are modelled by the `Sop` structure; file contents that can
fail to download or parse are modelled by `Entry`.  Stateful remote stores
become explicit state values (`RepoFS`, `GStore`), and code that can throw
returns `Except`.
-/

/-- JS string truthiness for an optional string field: absent and the empty
string are falsy. -/
def truthyOpt : Option String → Bool
  | none => false
  | some s => !(s == "")

/-- Bool test that `pat` is a leading segment of `l`. -/
def leadsWith : List Char → List Char → Bool
  | [], _ => true
  | _ :: _, [] => false
  | p :: ps, c :: cs => p == c && leadsWith ps cs

/-- Remove the first occurrence of `pat` from `l`, as the JS
`String.prototype.replace(pat, empty)` does with a string pattern. -/
def stripFirstAux (pat : List Char) : List Char → List Char
  | [] => []
  | c :: cs =>
    if leadsWith pat (c :: cs) then (c :: cs).drop pat.length
    else c :: stripFirstAux pat cs

/-- The JS expression `name.replace(".json", "")`: drops the first
occurrence of `.json` from the file name. -/
def stripJson (s : String) : String := ⟨stripFirstAux ".json".data s.data⟩

/-- The JS test `name.endsWith(".json")`. -/
def endsJson (s : String) : Bool := leadsWith ".json".data.reverse s.data.reverse

/-- Metadata envelope of a stored document (`sop.meta`).  Fields that the
code only reads optionally are `Option`s; `sopId = some ""` models a
present-but-empty id, which is falsy in JS. -/
structure Meta where
  sopId : Option String
  title : Option String
deriving DecidableEq

/-- A parsed SOP document: metadata envelope (possibly absent), the
`savedAt` stamp, and an opaque body distinguishing documents. -/
structure Sop where
  meta : Option Meta
  savedAt : Option String
  body : Nat
deriving DecidableEq

/-- The observable content of one remote file from the point of view of the
listing code: the download can fail, the text can fail `JSON.parse`, the
JSON can be `null`, or it parses to a document object. -/
inductive Entry
  | fetchFail
  | corrupt
  | jnull
  | doc (s : Sop)
deriving DecidableEq

/-- A JSON value accepted by the proxy service `put` route: `null` or a
document object (`JSON.parse` of the request body). -/
inductive JVal
  | jnull
  | doc (s : Sop)
deriving DecidableEq

/-- Serialise a JSON value back to stored file content
(`JSON.stringify` then later `JSON.parse` round-trips). -/
def Entry.ofJVal : JVal → Entry
  | JVal.jnull => Entry.jnull
  | JVal.doc s => Entry.doc s

/-- The key under which every lister records a parsed document:
`sop.meta.sopId || file.name.replace(".json", "")`. -/
def keyOf (name : String) (m : Meta) : String :=
  match m.sopId with
  | some v => if v == "" then stripJson name else v
  | none => stripJson name

/-- JS object assignment `sops[k] = s` on a mapping kept in insertion
order: replace the value of an existing key, else append. -/
def upsert (acc : List (String × Sop)) (k : String) (s : Sop) : List (String × Sop) :=
  if acc.any (fun p => p.1 == k) then acc.map (fun p => if p.1 == k then (k, s) else p)
  else acc ++ [(k, s)]

/-- The per-file outcome of the shared listing loop body: the key and
document recorded for this file, or `none` when the file is skipped
(wrong extension, failed download, unparseable JSON, `null`, or a
document without `meta`). -/
def stepKeySop (f : String × Entry) : Option (String × Sop) :=
  if endsJson f.1 then
    match f.2 with
    | Entry.doc s =>
      match s.meta with
      | some m => some (keyOf f.1 m, s)
      | none => none
    | _ => none
  else none

/-- One iteration of the listing loop: record the parsed document under its
key, or leave the accumulator unchanged. -/
def stepSop (acc : List (String × Sop)) (f : String × Entry) : List (String × Sop) :=
  match stepKeySop f with
  | some (k, s) => upsert acc k s
  | none => acc

/-- The shared listing loop of `listSops`, `loadAllSopsFromGoogleDrive` and
`loadAllSopsFromGitHubRepo`: fold the per-file step over the directory
contents, starting from the empty mapping. -/
def collectSops (files : List (String × Entry)) : List (String × Sop) :=
  files.foldl stepSop []

/-- The key a file would be recorded under, or `none` when skipped. -/
def entryKey (f : String × Entry) : Option String :=
  (stepKeySop f).map Prod.fst

/-- Keys of the files that the listing loop actually records, in order. -/
def validKeys (files : List (String × Entry)) : List String :=
  files.filterMap entryKey

/-- Error kinds raised on the file-host adapter paths. -/
inductive GhErr
  | conflict
  | notEnabled
  | repoMissing
  | typeErr
  | otherErr
deriving DecidableEq

/-- The versioned repository file system behind the file-host adapter:
an ordered association of paths to file content plus the content version
(sha), with a counter issuing fresh versions. -/
structure RepoFS where
  files : List (String × Entry × Nat)
  next : Nat
deriving DecidableEq

/-- Resolve a path to its current content and version token, as the
`GET /repos/:o/:r/contents/:path` request does (absent path = 404). -/
def RepoFS.find (fs : RepoFS) (path : String) : Option (Entry × Nat) :=
  (fs.files.find? (fun x => x.1 == path)).map (fun x => x.2)

/-- Modelled from the spec: the GitHub contents API `PUT` that backs
`saveFileToRepo`.  This endpoint is not part of src/; section 4.1.a states
that the backing store requires the current content hash to update an
existing file, that a put without a matching token on an existing path
fails with Conflict, and that creation on a nonexistent path proceeds
without a token.  A successful write stores the content under a fresh
version token. -/
def putContents (fs : RepoFS) (path : String) (e : Entry) (sha : Option Nat) :
    Except GhErr RepoFS :=
  match fs.find path with
  | some (_, cur) =>
    if sha = some cur then
      Except.ok ⟨fs.files.map (fun x => if x.1 == path then (path, e, fs.next) else x),
                 fs.next + 1⟩
    else Except.error GhErr.conflict
  | none =>
    match sha with
    | none => Except.ok ⟨fs.files ++ [(path, e, fs.next)], fs.next + 1⟩
    | some _ => Except.error GhErr.conflict

/-- `saveFileToRepo(path, content)`: first resolve the current sha of the
target path (a 404 leaves `sha = null`), then issue the contents `PUT`
carrying that sha when one was found. -/
def saveFileToRepo (fs : RepoFS) (path : String) (e : Entry) : Except GhErr RepoFS :=
  putContents fs path e ((fs.find path).map (fun x => x.2))

/-- `getFileFromRepo(path)`: fetch and parse one file.  When storage is not
enabled, `githubApiRequest` throws a not-enabled error whose message does
not contain `404`, so the catch rethrows it and the get raises.  A 404 on
the path is converted to `null`; content that parses to JSON `null` is
returned as `null`; content that fails `JSON.parse` (or a request failure
other than a 404) is rethrown. -/
def getFileFromRepo (enabled : Bool) (fs : RepoFS) (path : String) :
    Except GhErr (Option Sop) :=
  if !enabled then Except.error GhErr.notEnabled
  else
    match fs.find path with
    | none => Except.ok none
    | some (e, _) =>
      match e with
      | Entry.doc s => Except.ok (some s)
      | Entry.jnull => Except.ok none
      | _ => Except.error GhErr.otherErr

/-- Build the id the adapters assign: `m.sopId || "sop-" + Date.now()`. -/
def assignId (m : Meta) (now : Nat) : String :=
  match m.sopId with
  | some v => if v == "" then "sop-" ++ toString now else v
  | none => "sop-" ++ toString now

/-- `saveSopToGitHubRepo(sop)`: refuse when storage is not enabled, check
that the repository exists, ensure `sop.meta.sopId` and `sop.savedAt` are
set (mutating the document), and write `sops/<id>.json` through
`saveFileToRepo`.  A document without a `meta` object makes the JS throw a
TypeError when reading `sop.meta.sopId`.  Transient API failures other
than the repository-missing 404 are not modelled. -/
def saveSopToGitHubRepo (enabled repoExists : Bool) (fs : RepoFS) (sop : Sop)
    (now : Nat) : Except GhErr (RepoFS × Sop) :=
  if !enabled then Except.error GhErr.notEnabled
  else if !repoExists then Except.error GhErr.repoMissing
  else
    match sop.meta with
    | none => Except.error GhErr.typeErr
    | some m =>
      let sopId := assignId m now
      let sop1 : Sop :=
        { sop with
            meta := some { m with sopId := some sopId },
            savedAt := if truthyOpt sop.savedAt then sop.savedAt else some (toString now) }
      match saveFileToRepo fs ("sops/" ++ sopId ++ ".json") (Entry.doc sop1) with
      | Except.ok fs1 => Except.ok (fs1, sop1)
      | Except.error e => Except.error e

/-- `deleteSopFromGitHubRepo(sopId)`: return `false` when storage is not
enabled; resolve the sha of `sops/<id>.json` and, when the resolution
reports 404, short-circuit to `true`; otherwise delete the file carrying
the resolved sha and return `true`.  Transient API failures are not
modelled. -/
def deleteSopFromGitHubRepo (enabled : Bool) (fs : RepoFS) (sopId : String) :
    RepoFS × Bool :=
  if !enabled then (fs, false)
  else
    match fs.find ("sops/" ++ sopId ++ ".json") with
    | none => (fs, true)
    | some _ =>
      (⟨fs.files.filter (fun x => !(x.1 == ("sops/" ++ sopId ++ ".json"))), fs.next⟩, true)

/-- Outcome of one authenticated GitHub API request as the listing code
observes it: success with a payload, a 404, or any other failure. -/
inductive ApiResult (α : Type)
  | ok (a : α)
  | err404
  | errOther

/-- One entry of the `contents/sops` directory listing. -/
structure GFile where
  name : String
  path : String
  isFile : Bool

/-- The remote responses seen by one run of `loadAllSopsFromGitHubRepo`:
whether storage is enabled, the repository existence check, the `sops/`
directory listing, and the per-path file downloads. -/
structure GithubEnv where
  enabled : Bool
  repoCheck : ApiResult Unit
  dirListing : ApiResult (List GFile)
  fileGet : String → ApiResult Entry

/-- Loop body of the file-host lister: only regular files named `*.json`
are considered; `getFileFromRepo` turns a 404 into `null` (skipped), any
other failure is caught per file, and parsed documents with a `meta`
envelope are recorded under `keyOf`. -/
def ghFileStep (env : GithubEnv) (acc : List (String × Sop)) (f : GFile) :
    List (String × Sop) :=
  if f.isFile && endsJson f.name then
    match env.fileGet f.path with
    | ApiResult.ok (Entry.doc s) =>
      match s.meta with
      | some m => upsert acc (keyOf f.name m) s
      | none => acc
    | _ => acc
  else acc

/-- Body of the outer `try` of `loadAllSopsFromGitHubRepo`: a missing
repository returns `null` from inside the inner catch, any other
repository-check failure is rethrown; a missing `sops/` directory returns
the empty mapping, any other listing failure is rethrown; otherwise the
per-file loop runs (it cannot throw). -/
def ghLoadAllBody (env : GithubEnv) : Except GhErr (Option (List (String × Sop))) :=
  match env.repoCheck with
  | ApiResult.err404 => Except.ok none
  | ApiResult.errOther => Except.error GhErr.otherErr
  | ApiResult.ok _ =>
    match env.dirListing with
    | ApiResult.err404 => Except.ok (some [])
    | ApiResult.errOther => Except.error GhErr.otherErr
    | ApiResult.ok files => Except.ok (some (files.foldl (ghFileStep env) []))

/-- `loadAllSopsFromGitHubRepo()`: `null` when storage is not enabled,
otherwise the `try` body with its outer catch turning every escaped error
into the empty mapping. -/
def loadAllSopsFromGitHubRepo (env : GithubEnv) :
    Except GhErr (Option (List (String × Sop))) :=
  if !env.enabled then Except.ok none
  else
    match ghLoadAllBody env with
    | Except.ok r => Except.ok r
    | Except.error _ => Except.ok (some [])

/-- One file of a Drive folder: the backend file id, the file name, and
its content as the clients observe it. -/
structure DFile where
  fid : Nat
  name : String
  entry : Entry
deriving DecidableEq

/-- The contents of the single SOPs Drive folder, with a counter issuing
fresh file ids for `files.create`. -/
structure GStore where
  files : List DFile
  nextId : Nat
deriving DecidableEq

/-- Proxy service `listSops`: list the folder (the query pre-filter
`name contains .json` is subsumed by the loop re-check
`name.endsWith(".json")`), download and parse each file, skip failures
per file, and key parsed documents through the shared loop. -/
def listSops (st : GStore) : List (String × Sop) :=
  collectSops (st.files.map (fun f => (f.name, f.entry)))

/-- Proxy service `getSop(sopId)`: resolve `<id>.json` by name; no match
returns `null`; a match downloads and `JSON.parse`s the content, where a
download or parse failure throws (the route answers 500) and a JSON
`null` is returned as `null`. -/
def getSop (st : GStore) (sopId : String) : Except Unit (Option Sop) :=
  match st.files.find? (fun f => f.name == (sopId ++ ".json")) with
  | none => Except.ok none
  | some f =>
    match f.entry with
    | Entry.doc s => Except.ok (some s)
    | Entry.jnull => Except.ok none
    | _ => Except.error ()

/-- The id under which the proxy service stores a posted JSON value:
`(sop && sop.meta && sop.meta.sopId) || "sop-" + Date.now()`. -/
def assignIdJ (sop : JVal) (now : Nat) : String :=
  match sop with
  | JVal.jnull => "sop-" ++ toString now
  | JVal.doc s =>
    match s.meta with
    | some m => assignId m now
    | none => "sop-" ++ toString now

/-- Proxy service `saveSop(sop)`: derive the target file name, look for an
existing file of that name, update the first match in place or create a
new file with the serialised content, and report `true`.  The posted
value is stored unchanged. -/
def saveSop (st : GStore) (sop : JVal) (now : Nat) : GStore × Bool :=
  let fileName := assignIdJ sop now ++ ".json"
  match st.files.find? (fun f => f.name == fileName) with
  | some f =>
    (⟨st.files.map (fun x => if x.fid == f.fid then { x with entry := Entry.ofJVal sop } else x),
      st.nextId⟩, true)
  | none =>
    (⟨st.files ++ [⟨st.nextId, fileName, Entry.ofJVal sop⟩], st.nextId + 1⟩, true)

/-- Proxy service `deleteSop(sopId)`: resolve `<id>.json` by name, delete
the first match when one exists, and report `true` either way. -/
def deleteSop (st : GStore) (sopId : String) : GStore × Bool :=
  match st.files.find? (fun f => f.name == (sopId ++ ".json")) with
  | some f => (⟨st.files.filter (fun x => !(x.fid == f.fid)), st.nextId⟩, true)
  | none => (st, true)

/-- The JSON payload of a thin-proxy response body as
`loadAllSopsFromSharedAPI` inspects it: unparseable, JSON `null`, an
object with a truthy `sops` object, a plain object used directly, or an
array. -/
inductive JsonData
  | badJson
  | jnullData
  | objWithSops (m : List (String × Sop))
  | objSelf (m : List (String × Sop))
  | arrData
deriving DecidableEq

/-- Outcome of one `fetch` as the thin-proxy adapter observes it: a
transport failure, or a response with its `ok` flag and body. -/
inductive FetchRes
  | netErr
  | resp (ok : Bool) (body : JsonData)
deriving DecidableEq

/-- `loadAllSopsFromSharedAPI()`: `null` when no base URL is configured;
otherwise a transport failure, a non-2xx status or an unparseable body is
caught and converted to `null`; `data.sops || data` is returned when it
is a non-array object, and anything else yields the empty mapping (a JSON
`null` body passes the `typeof` test and is returned as `null`). -/
def loadAllSopsFromSharedAPI (base : String) (f : FetchRes) :
    Except Unit (Option (List (String × Sop))) :=
  if base == "" then Except.ok none
  else
    match f with
    | FetchRes.netErr => Except.ok none
    | FetchRes.resp false _ => Except.ok none
    | FetchRes.resp true b =>
      match b with
      | JsonData.badJson => Except.ok none
      | JsonData.jnullData => Except.ok none
      | JsonData.objWithSops m => Except.ok (some m)
      | JsonData.objSelf m => Except.ok (some m)
      | JsonData.arrData => Except.ok (some [])

/-- `saveSopToSharedAPI(sop)`: `false` when no base URL is configured;
a transport failure or non-2xx status is rethrown to the caller;
a 2xx response reports `true`. -/
def saveSopToSharedAPI (base : String) (f : FetchRes) : Except Unit Bool :=
  if base == "" then Except.ok false
  else
    match f with
    | FetchRes.netErr => Except.error ()
    | FetchRes.resp false _ => Except.error ()
    | FetchRes.resp true _ => Except.ok true

/-- `deleteSopFromSharedAPI(sopId)`: `false` when no base URL is
configured; a transport failure or non-2xx status is rethrown; a 2xx
response reports `true`. -/
def deleteSopFromSharedAPI (base : String) (f : FetchRes) : Except Unit Bool :=
  if base == "" then Except.ok false
  else
    match f with
    | FetchRes.netErr => Except.error ()
    | FetchRes.resp false _ => Except.error ()
    | FetchRes.resp true _ => Except.ok true

/-- The `googleDriveConfig` record persisted in browser storage. -/
structure DriveConfig where
  clientId : Option String
  apiKey : Option String
  folderId : Option String
deriving DecidableEq

/-- The `googleDriveToken` record persisted in browser storage: the access
token and its expiry instant in milliseconds. -/
structure TokenRecord where
  access_token : String
  expires_at : Nat
deriving DecidableEq

/-- The browser `localStorage` keys the folder-store adapter uses. -/
structure BrowserStore where
  googleDriveConfig : Option DriveConfig
  googleDriveToken : Option TokenRecord
deriving DecidableEq

/-- The module-level `googleDriveStorage` mutable record. -/
structure DriveGlobal where
  clientId : Option String
  apiKey : Option String
  folderId : Option String
  isEnabled : Bool
  isAuthenticated : Bool
  accessToken : Option String
deriving DecidableEq

/-- Normalise a config field as `config.clientId || null` does. -/
def normOpt (o : Option String) : Option String :=
  if truthyOpt o then o else none

/-- `initGoogleDriveStorage()`: reload the config from browser storage
(enabled iff both client id and API key are truthy), then load the
persisted token: a token whose `expires_at` is still in the future is
adopted and marks the client authenticated; an expired token is removed
from storage and the client marked unauthenticated; with no stored token
the client is unauthenticated. -/
def initGoogleDriveStorage (g : DriveGlobal) (ls : BrowserStore) (now : Nat) :
    DriveGlobal × BrowserStore :=
  let g1 :=
    match ls.googleDriveConfig with
    | some c =>
      { g with
          clientId := normOpt c.clientId,
          apiKey := normOpt c.apiKey,
          folderId := normOpt c.folderId,
          isEnabled := truthyOpt c.clientId && truthyOpt c.apiKey }
    | none => { g with isEnabled := false }
  match ls.googleDriveToken with
  | some t =>
    if now < t.expires_at then
      ({ g1 with accessToken := some t.access_token, isAuthenticated := true }, ls)
    else
      ({ g1 with isAuthenticated := false }, { ls with googleDriveToken := none })
  | none => ({ g1 with isAuthenticated := false }, ls)

/-- The browser-side interactive sign-in environment: whether the Google
API script loads in time, whether an auth instance is available, and the
auth response of an interactive sign-in (`none` = sign-in failure or no
access token). -/
structure AuthEnv where
  gapiLoads : Bool
  authInstance : Bool
  signIn : Option (String × Nat)
deriving DecidableEq

/-- `authenticateGoogleDrive()`: reload config and token from browser
storage, throw when not configured, then run the interactive flow; any
failure inside the `try` marks the client unauthenticated and rethrows; a
successful sign-in caches the access token in memory and persists it with
`expires_at = now + expires_in * 1000`.  The Bool reports success
(`false` = the JS function threw). -/
def authenticateGoogleDrive (g : DriveGlobal) (ls : BrowserStore) (env : AuthEnv)
    (now : Nat) : DriveGlobal × BrowserStore × Bool :=
  let (g1, ls1) := initGoogleDriveStorage g ls now
  if !(g1.isEnabled && truthyOpt g1.clientId && truthyOpt g1.apiKey) then
    (g1, ls1, false)
  else if !env.gapiLoads || !env.authInstance then
    ({ g1 with isAuthenticated := false }, ls1, false)
  else
    match env.signIn with
    | some (tok, expiresIn) =>
      ({ g1 with accessToken := some tok, isAuthenticated := true },
       { ls1 with googleDriveToken := some ⟨tok, now + expiresIn * 1000⟩ }, true)
    | none => ({ g1 with isAuthenticated := false }, ls1, false)

/-- The remote Drive behaviour one folder-store operation observes beyond
the file contents: the sign-in environment, whether `files.get` on the
configured folder id succeeds, whether a folder `files.create` succeeds,
and the id a created folder receives. -/
structure DriveEnv where
  auth : AuthEnv
  folderLookupOk : Bool
  createFolderOk : Bool
  newFolderId : String
deriving DecidableEq

/-- Write a created folder id back into the persisted config, creating the
config record when absent. -/
def persistFolderId (ls : BrowserStore) (fid : String) : BrowserStore :=
  match ls.googleDriveConfig with
  | some c => { ls with googleDriveConfig := some { c with folderId := some fid } }
  | none => { ls with googleDriveConfig := some ⟨none, none, some fid⟩ }

/-- Result of `getSopsFolder()`: the updated global record and browser
storage, the folder id (`none` when the call threw), and whether an
interactive authentication ran. -/
structure FolderOut where
  g : DriveGlobal
  ls : BrowserStore
  folder : Option String
  authRan : Bool
deriving DecidableEq

/-- `getSopsFolder()`: authenticate when the in-memory flag says the
client is not authenticated (a failure propagates); verify a configured
folder id with `files.get`, falling through to folder creation when the
lookup fails or no id is configured; a created folder id is cached and
persisted into the config. -/
def getSopsFolder (g : DriveGlobal) (ls : BrowserStore) (env : DriveEnv) (now : Nat) :
    FolderOut :=
  let (g1, ls1, authRan, ok) :=
    if !g.isAuthenticated then
      let r := authenticateGoogleDrive g ls env.auth now
      (r.1, r.2.1, true, r.2.2)
    else (g, ls, false, true)
  if !ok then ⟨g1, ls1, none, authRan⟩
  else
    match g1.folderId with
    | some fid =>
      if env.folderLookupOk then ⟨g1, ls1, some fid, authRan⟩
      else if env.createFolderOk then
        ⟨{ g1 with folderId := some env.newFolderId },
         persistFolderId ls1 env.newFolderId, some env.newFolderId, authRan⟩
      else ⟨g1, ls1, none, authRan⟩
    | none =>
      if env.createFolderOk then
        ⟨{ g1 with folderId := some env.newFolderId },
         persistFolderId ls1 env.newFolderId, some env.newFolderId, authRan⟩
      else ⟨g1, ls1, none, authRan⟩

/-- Result of `saveSopToGoogleDrive`: updated global record, browser
storage and folder contents, the outcome (`ok false` = early return,
`ok true` = saved, `error` = the JS function rethrew), and whether an
interactive authentication ran. -/
structure SaveOut where
  g : DriveGlobal
  ls : BrowserStore
  st : GStore
  result : Except Unit Bool
  authRan : Bool

/-- `saveSopToGoogleDrive(sop)`: return `false` when not enabled; inside
the `try`, authenticate only when the in-memory flag is unset, resolve
the folder, read `sop.meta.sopId` (a missing `meta` raises a TypeError),
then update the first existing `<id>.json` in place or create a new file
and upload its content; any failure is rethrown.  The document is stored
unchanged.  The metadata update plus content upload pair, and the create
plus upload pair, are modelled by their combined effect on the folder. -/
def saveSopToGoogleDrive (g : DriveGlobal) (ls : BrowserStore) (st : GStore)
    (env : DriveEnv) (sop : Sop) (now : Nat) : SaveOut :=
  if !g.isEnabled then ⟨g, ls, st, Except.ok false, false⟩
  else
    let (g1, ls1, authRan, ok) :=
      if !g.isAuthenticated then
        let r := authenticateGoogleDrive g ls env.auth now
        (r.1, r.2.1, true, r.2.2)
      else (g, ls, false, true)
    if !ok then ⟨g1, ls1, st, Except.error (), authRan⟩
    else
      let fo := getSopsFolder g1 ls1 env now
      match fo.folder with
      | none => ⟨fo.g, fo.ls, st, Except.error (), authRan || fo.authRan⟩
      | some _ =>
        match sop.meta with
        | none => ⟨fo.g, fo.ls, st, Except.error (), authRan || fo.authRan⟩
        | some m =>
          let fileName := assignId m now ++ ".json"
          match st.files.find? (fun f => f.name == fileName) with
          | some f =>
            ⟨fo.g, fo.ls,
             ⟨st.files.map (fun x => if x.fid == f.fid then { x with entry := Entry.doc sop } else x),
              st.nextId⟩,
             Except.ok true, authRan || fo.authRan⟩
          | none =>
            ⟨fo.g, fo.ls,
             ⟨st.files ++ [⟨st.nextId, fileName, Entry.doc sop⟩], st.nextId + 1⟩,
             Except.ok true, authRan || fo.authRan⟩

/-- Result of `loadAllSopsFromGoogleDrive`: updated global record and
browser storage, the returned mapping (`none` = the JS returned `null`),
and whether an interactive authentication ran. -/
structure LoadOut where
  g : DriveGlobal
  ls : BrowserStore
  result : Option (List (String × Sop))
  authRan : Bool
deriving DecidableEq

/-- `loadAllSopsFromGoogleDrive()`: `null` when not enabled; authenticate
only when the in-memory flag is unset; list the folder and run the shared
per-file loop; any error escaping the `try` is caught and `null`
returned. -/
def loadAllSopsFromGoogleDrive (g : DriveGlobal) (ls : BrowserStore) (st : GStore)
    (env : DriveEnv) (now : Nat) : LoadOut :=
  if !g.isEnabled then ⟨g, ls, none, false⟩
  else
    let (g1, ls1, authRan, ok) :=
      if !g.isAuthenticated then
        let r := authenticateGoogleDrive g ls env.auth now
        (r.1, r.2.1, true, r.2.2)
      else (g, ls, false, true)
    if !ok then ⟨g1, ls1, none, authRan⟩
    else
      let fo := getSopsFolder g1 ls1 env now
      match fo.folder with
      | none => ⟨fo.g, fo.ls, none, authRan || fo.authRan⟩
      | some _ =>
        ⟨fo.g, fo.ls, some (collectSops (st.files.map (fun f => (f.name, f.entry)))),
         authRan || fo.authRan⟩

/-- `deleteSopFromGoogleDrive(sopId)`: return `false` when not enabled or
not authenticated; resolve the folder, look `<id>.json` up by name,
delete the match and return `true` when one exists, and return `false`
when none does; any error is caught and `false` returned. -/
def deleteSopFromGoogleDrive (g : DriveGlobal) (ls : BrowserStore) (st : GStore)
    (env : DriveEnv) (sopId : String) (now : Nat) :
    DriveGlobal × BrowserStore × GStore × Bool :=
  if !(g.isEnabled && g.isAuthenticated) then (g, ls, st, false)
  else
    let fo := getSopsFolder g ls env now
    match fo.folder with
    | none => (fo.g, fo.ls, st, false)
    | some _ =>
      match st.files.find? (fun f => f.name == (sopId ++ ".json")) with
      | some f => (fo.g, fo.ls, ⟨st.files.filter (fun x => !(x.fid == f.fid)), st.nextId⟩, true)
      | none => (fo.g, fo.ls, st, false)

/-- `signOutGoogleDrive()`: when the auth library and an auth instance are
present, revoke the session first; the local clearing of the cached
access token and the persisted token record sits after that call inside
the same `try`, so a revoke failure jumps to the catch and returns
`false` with the state untouched; otherwise the session is cleared and
`true` returned. -/
def signOutGoogleDrive (gapiAuth2 : Bool) (authInstance : Bool) (revokeOk : Bool)
    (g : DriveGlobal) (ls : BrowserStore) : DriveGlobal × BrowserStore × Bool :=
  if gapiAuth2 && authInstance && !revokeOk then (g, ls, false)
  else
    ({ g with accessToken := none, isAuthenticated := false },
     { ls with googleDriveToken := none }, true)

/-- Test document with id `a`. -/
def fxSopA : Sop := ⟨some ⟨some "a", some "Alpha"⟩, none, 1⟩

/-- Test document with id `x`. -/
def fxSopB : Sop := ⟨some ⟨some "x", some "Beta"⟩, none, 2⟩

/-- A second, distinct test document that also carries id `x`. -/
def fxSopC : Sop := ⟨some ⟨some "x", some "Gamma"⟩, none, 3⟩

/-- Test document submitted without an id. -/
def fxSopNoId : Sop := ⟨some ⟨none, some "Test"⟩, none, 4⟩

/-- Test document whose embedded id is the empty string. -/
def fxSopEmptyId : Sop := ⟨some ⟨some "", some "Empty"⟩, none, 5⟩

/-- A one-file repository: `sops/a.json` at version 0, next fresh version 1. -/
def fxRepo : RepoFS := ⟨[("sops/a.json", Entry.doc fxSopA, 0)], 1⟩

/-- Folder-store global record of a configured, signed-in client. -/
def fxGlobalAuth : DriveGlobal := ⟨some "cid", some "key", some "F", true, true, some "tok"⟩

/-- Folder-store global record with no configuration. -/
def fxGlobalOff : DriveGlobal := ⟨none, none, none, false, false, none⟩

/-- A persisted configuration with client id, API key and folder id. -/
def fxConfig : DriveConfig := ⟨some "cid", some "key", some "F"⟩

/-- Browser storage holding the configuration and a token that expired at
instant 1000. -/
def fxLsExpired : BrowserStore := ⟨some fxConfig, some ⟨"tok", 1000⟩⟩

/-- Drive environment in which interactive sign-in would fail, while the
configured folder resolves fine. -/
def fxEnvNoSignIn : DriveEnv := ⟨⟨false, false, none⟩, true, true, "NF"⟩

/-- Drive environment in which everything succeeds. -/
def fxEnvOk : DriveEnv := ⟨⟨true, true, some ("tok2", 3600)⟩, true, true, "NF"⟩

/-- GitHub environment of an unconfigured client. -/
def fxGhOff : GithubEnv := ⟨false, ApiResult.ok (), ApiResult.ok [], fun _ => ApiResult.err404⟩

/-- Two well-formed files carrying the same embedded id `x`. -/
def fxFilesDup : List (String × Entry) := [("a.json", Entry.doc fxSopB), ("b.json", Entry.doc fxSopC)]

/-- Two well-formed files with distinct ids plus one corrupt file. -/
def fxFilesOk : List (String × Entry) :=
  [("a.json", Entry.doc fxSopA), ("b.json", Entry.doc fxSopB), ("bad.json", Entry.corrupt)]

/-- An empty Drive folder. -/
def fxStoreEmpty : GStore := ⟨[], 0⟩

/-- A Drive folder holding two well-formed documents and one corrupt file. -/
def fxStoreList : GStore :=
  ⟨[⟨0, "a.json", Entry.doc fxSopA⟩, ⟨1, "b.json", Entry.doc fxSopB⟩,
    ⟨2, "bad.json", Entry.corrupt⟩], 3⟩

/-- GitHub environment of an enabled client whose repository does not
exist yet. -/
def fxGhNoRepo : GithubEnv :=
  ⟨true, ApiResult.err404, ApiResult.ok [], fun _ => ApiResult.err404⟩

theorem upsert_notMem (acc : List (String × Sop)) (k : String) (s : Sop)
    (h : k ∉ acc.map Prod.fst) : upsert acc k s = acc ++ [(k, s)] := by
  have hc : ¬ (acc.any (fun p => p.1 == k) = true) := by
    intro hc
    rcases List.any_eq_true.mp hc with ⟨p, hp, hpk⟩
    exact h (by rw [← beq_iff_eq.mp hpk]; exact List.mem_map_of_mem Prod.fst hp)
  unfold upsert
  rw [if_neg hc]

theorem find?_map_overwrite (l : List (String × Entry × Nat)) (path : String)
    (e : Entry) (n : Nat) (h : (l.find? (fun x => x.1 == path)).isSome = true) :
    (l.map (fun x => if x.1 == path then (path, e, n) else x)).find?
      (fun x => x.1 == path) = some (path, e, n) := by
  induction l with
  | nil => simp [List.find?] at h
  | cons a l ih =>
    by_cases ha : a.1 = path
    · have ha' : (a.1 == path) = true := beq_iff_eq.mpr ha
      simp [List.find?, ha']
    · have ha' : (a.1 == path) = false := beq_eq_false_iff_ne.mpr ha
      have hcons : List.find? (fun x => x.1 == path) (a :: l)
          = List.find? (fun x => x.1 == path) l := by
        simp [List.find?, ha']
      rw [hcons] at h
      have hgoal : List.find? (fun x => x.1 == path)
          (List.map (fun x => if x.1 == path then (path, e, n) else x) (a :: l))
          = List.find? (fun x => x.1 == path)
            (List.map (fun x => if x.1 == path then (path, e, n) else x) l) := by
        simp [List.find?, ha']
      rw [hgoal]
      exact ih h

theorem find?_dfile_update (l : List DFile) (nm : String) (f : DFile) (e : Entry)
    (h : l.find? (fun x => x.name == nm) = some f) :
    (l.map (fun x => if x.fid == f.fid then { x with entry := e } else x)).find?
      (fun x => x.name == nm) = some { f with entry := e } := by
  induction l with
  | nil => simp [List.find?] at h
  | cons a l ih =>
    by_cases ha : a.name = nm
    · have ha' : (a.name == nm) = true := beq_iff_eq.mpr ha
      have hf : a = f := by simpa [List.find?, ha'] using h
      subst hf
      simp [List.find?, ha']
    · have ha' : (a.name == nm) = false := beq_eq_false_iff_ne.mpr ha
      have hcons : List.find? (fun x => x.name == nm) (a :: l)
          = List.find? (fun x => x.name == nm) l := by simp [List.find?, ha']
      rw [hcons] at h
      have hgoal : List.find? (fun x => x.name == nm)
          (List.map (fun x => if x.fid == f.fid then { x with entry := e } else x) (a :: l))
          = List.find? (fun x => x.name == nm)
            (List.map (fun x => if x.fid == f.fid then { x with entry := e } else x) l) := by
        cases hfid : a.fid == f.fid <;> simp [List.find?, hfid, ha']
      rw [hgoal]
      exact ih h

theorem stepSop_none (acc : List (String × Sop)) (f : String × Entry)
    (h : stepKeySop f = none) : stepSop acc f = acc := by
  unfold stepSop; rw [h]

theorem validKeys_cons_none (f : String × Entry) (fs : List (String × Entry))
    (h : stepKeySop f = none) : validKeys (f :: fs) = validKeys fs := by
  simp [validKeys, entryKey, h]

theorem validKeys_cons_some (f : String × Entry) (fs : List (String × Entry))
    (k : String) (s : Sop) (h : stepKeySop f = some (k, s)) :
    validKeys (f :: fs) = k :: validKeys fs := by
  simp [validKeys, entryKey, h]

theorem collect_aux (files : List (String × Entry)) :
    ∀ acc : List (String × Sop),
      ((acc.map Prod.fst) ++ validKeys files).Nodup →
      (files.foldl stepSop acc).map Prod.fst = acc.map Prod.fst ++ validKeys files := by
  induction files with
  | nil => intro acc _; simp [validKeys]
  | cons f fs ih =>
    intro acc h
    cases hk : stepKeySop f with
    | none =>
      rw [List.foldl_cons, stepSop_none acc f hk]
      rw [validKeys_cons_none f fs hk] at h ⊢
      exact ih acc h
    | some ks =>
      obtain ⟨k, s⟩ := ks
      rw [validKeys_cons_some f fs k s hk] at h ⊢
      have hkn : k ∉ acc.map Prod.fst := by
        rcases List.nodup_append.mp h with ⟨h1, h2, hdisj⟩
        intro hmem
        exact hdisj hmem (List.mem_cons_self k (validKeys fs))
      rw [List.foldl_cons]
      have hstep : stepSop acc f = acc ++ [(k, s)] := by
        unfold stepSop; rw [hk]; exact upsert_notMem acc k s hkn
      rw [hstep]
      have happ : (acc ++ [(k, s)]).map Prod.fst = acc.map Prod.fst ++ [k] := by simp
      have h2 : ((acc ++ [(k, s)]).map Prod.fst ++ validKeys fs).Nodup := by
        rw [happ, List.append_assoc]
        simpa using h
      have h3 := ih (acc ++ [(k, s)]) h2
      rw [h3, happ, List.append_assoc]
      simp

/-- Claim C1: optimistic concurrency of the versioned file-host write.
When `sops/<id>.json` currently carries version token `t2` and `t1` is any
other (stale) token, the contents `PUT` carrying `t1` fails with Conflict
instead of overwriting, the `PUT` carrying `t2` succeeds, and after that
success no further `PUT` carrying `t2` succeeds again, so at most one
write succeeds per version per document id.  The hypothesis
`t2 < fs.next` says `t2` was issued by the store. -/
theorem c1_conflict_protocol (fs : RepoFS) (sopId : String) (e0 c1 c2 : Entry)
    (t1 t2 : Nat)
    (hfind : fs.find ("sops/" ++ sopId ++ ".json") = some (e0, t2))
    (hne : t1 ≠ t2) (hfresh : t2 < fs.next) :
    putContents fs ("sops/" ++ sopId ++ ".json") c1 (some t1) = Except.error GhErr.conflict ∧
    ∃ fs2, putContents fs ("sops/" ++ sopId ++ ".json") c2 (some t2) = Except.ok fs2 ∧
      ∀ c3, putContents fs2 ("sops/" ++ sopId ++ ".json") c3 (some t2)
        = Except.error GhErr.conflict := by
  have hsome : (fs.files.find? (fun x => x.1 == ("sops/" ++ sopId ++ ".json"))).isSome = true := by
    unfold RepoFS.find at hfind
    cases hfq : fs.files.find? (fun x => x.1 == ("sops/" ++ sopId ++ ".json")) with
    | none => rw [hfq] at hfind; simp at hfind
    | some x => simp
  constructor
  · simp only [putContents, hfind]
    rw [if_neg]
    intro hc
    exact hne (Option.some.inj hc)
  · refine ⟨⟨fs.files.map (fun x => if x.1 == ("sops/" ++ sopId ++ ".json")
        then ("sops/" ++ sopId ++ ".json", c2, fs.next) else x), fs.next + 1⟩, ?_, ?_⟩
    · simp only [putContents, hfind]
      simp
    · intro c3
      have hfind2 : RepoFS.find
          ⟨fs.files.map (fun x => if x.1 == ("sops/" ++ sopId ++ ".json")
            then ("sops/" ++ sopId ++ ".json", c2, fs.next) else x), fs.next + 1⟩
          ("sops/" ++ sopId ++ ".json") = some (c2, fs.next) := by
        unfold RepoFS.find
        rw [find?_map_overwrite fs.files ("sops/" ++ sopId ++ ".json") c2 fs.next hsome]
        rfl
      simp only [putContents, hfind2]
      rw [if_neg]
      intro hc
      exact absurd (Option.some.inj hc) (Nat.ne_of_lt hfresh)

/-- Witness for C1 at a concrete one-file repository: the stale token 1 is
rejected with Conflict for document id `a` whose current token is 0. -/
theorem c1_conflict_protocol_w :
    putContents fxRepo ("sops/" ++ "a" ++ ".json") Entry.jnull (some 1)
      = Except.error GhErr.conflict :=
  (c1_conflict_protocol fxRepo "a" (Entry.doc fxSopA) Entry.jnull Entry.jnull 1 0
    (by decide) (by decide) (by decide)).1

/-- Claim C2 (amended): idempotent delete holds for the proxy service and
for the enabled file-host adapter: deleting a nonexistent document
reports success, and two consecutive deletes of the same id both report
success.  The folder-store adapter instead reports `false` when no
matching file exists; see the counterexample. -/
theorem c2_idempotent_delete (st : GStore) (fs : RepoFS) (sopId : String) :
    (deleteSop st sopId).2 = true ∧
    (deleteSop (deleteSop st sopId).1 sopId).2 = true ∧
    (deleteSopFromGitHubRepo true fs sopId).2 = true ∧
    (deleteSopFromGitHubRepo true (deleteSopFromGitHubRepo true fs sopId).1 sopId).2
      = true := by
  have hcr : ∀ st2 : GStore, (deleteSop st2 sopId).2 = true := by
    intro st2
    unfold deleteSop
    split <;> rfl
  have hgh : ∀ fs2 : RepoFS, (deleteSopFromGitHubRepo true fs2 sopId).2 = true := by
    intro fs2
    unfold deleteSopFromGitHubRepo
    simp only [Bool.not_true, Bool.false_eq_true, if_false]
    split <;> rfl
  exact ⟨hcr st, hcr _, hgh fs, hgh _⟩

/-- Counterexample for C2: the folder-store adapter, enabled and signed in
over an empty folder, reports `false` rather than success for the delete
of a nonexistent document, so deleting a nonexistent document is not a
success on every backend adapter. -/
theorem c2_cex_drive_delete_missing :
    deleteSopFromGoogleDrive fxGlobalAuth fxLsExpired fxStoreEmpty fxEnvOk "a" 0
      = (fxGlobalAuth, fxLsExpired, fxStoreEmpty, false) := rfl

/-- Claim C3 (amended): an expired session persisted in browser storage is
never loaded for reuse: reloading adapter state discards a persisted
token whose expiry is not in the future and marks the client
unauthenticated, so the next operation goes through interactive
authentication.  Operations themselves test only the in-memory flag; an
in-memory session is reused past its expiry (see the counterexample). -/
theorem c3_expired_token_discarded (g : DriveGlobal) (ls : BrowserStore) (now : Nat)
    (t : TokenRecord) (hts : ls.googleDriveToken = some t) (hexp : t.expires_at ≤ now) :
    (initGoogleDriveStorage g ls now).1.isAuthenticated = false ∧
    (initGoogleDriveStorage g ls now).2.googleDriveToken = none := by
  have hlt : ¬ (now < t.expires_at) := not_lt.mpr hexp
  simp only [initGoogleDriveStorage, hts]
  rw [if_neg hlt]
  exact ⟨rfl, rfl⟩

/-- Witness for C3 at a concrete state: a token that expired at instant
1000 is discarded when state is reloaded at instant 2000. -/
theorem c3_expired_token_discarded_w :
    (initGoogleDriveStorage fxGlobalOff fxLsExpired 2000).1.isAuthenticated = false ∧
    (initGoogleDriveStorage fxGlobalOff fxLsExpired 2000).2.googleDriveToken = none :=
  c3_expired_token_discarded fxGlobalOff fxLsExpired 2000 ⟨"tok", 1000⟩ rfl (by decide)

/-- Counterexample for C3: a save at instant 5000 with the in-memory flag
still set reuses the cached session whose persisted expiry is 1000: it
succeeds without any re-authentication even though interactive sign-in
would fail in this environment, so not every operation checks expiry
first. -/
theorem c3_cex_expired_session_reused :
    (saveSopToGoogleDrive fxGlobalAuth fxLsExpired fxStoreEmpty fxEnvNoSignIn fxSopA 5000).result
      = Except.ok true ∧
    (saveSopToGoogleDrive fxGlobalAuth fxLsExpired fxStoreEmpty fxEnvNoSignIn fxSopA 5000).authRan
      = false ∧
    fxLsExpired.googleDriveToken = some ⟨"tok", 1000⟩ := ⟨rfl, rfl, rfl⟩

/-- Claim C4 (amended): with no backend configured, the three load-all
operations return null rather than raising, but the file-host get raises
(its not-enabled error does not contain `404` and is rethrown); among the
writes only the file-host save raises, while the folder-store save, the
thin-proxy save and all three deletes report `false` without raising.
See the counterexample for a silent unconfigured write and a raising
unconfigured read. -/
theorem c4_unconfigured_behaviour (env : GithubEnv) (fs : RepoFS) (sop : Sop)
    (now : Nat) (rex : Bool) (g : DriveGlobal) (ls : BrowserStore) (st : GStore)
    (denv : DriveEnv) (sid : String) (f : FetchRes)
    (henv : env.enabled = false) (hg : g.isEnabled = false) :
    loadAllSopsFromGitHubRepo env = Except.ok none ∧
    (loadAllSopsFromGoogleDrive g ls st denv now).result = none ∧
    loadAllSopsFromSharedAPI "" f = Except.ok none ∧
    getFileFromRepo false fs sid = Except.error GhErr.notEnabled ∧
    saveSopToGitHubRepo false rex fs sop now = Except.error GhErr.notEnabled ∧
    (saveSopToGoogleDrive g ls st denv sop now).result = Except.ok false ∧
    saveSopToSharedAPI "" f = Except.ok false ∧
    deleteSopFromGitHubRepo false fs sid = (fs, false) ∧
    (deleteSopFromGoogleDrive g ls st denv sid now).2.2.2 = false ∧
    deleteSopFromSharedAPI "" f = Except.ok false := by
  refine ⟨?_, ?_, rfl, rfl, rfl, ?_, rfl, rfl, ?_, rfl⟩
  · simp [loadAllSopsFromGitHubRepo, henv]
  · simp [loadAllSopsFromGoogleDrive, hg]
  · simp [saveSopToGoogleDrive, hg]
  · simp [deleteSopFromGoogleDrive, hg]

/-- Witness for C4 at concrete unconfigured states. -/
theorem c4_unconfigured_behaviour_w :
    loadAllSopsFromGitHubRepo fxGhOff = Except.ok none :=
  (c4_unconfigured_behaviour fxGhOff fxRepo fxSopA 0 true fxGlobalOff
    ⟨none, none⟩ fxStoreEmpty fxEnvOk "a" FetchRes.netErr rfl rfl).1

/-- Counterexample for C4, refuting both halves of the claim: with no base
URL configured the thin-proxy save returns `false` instead of raising, so
not every write fails loudly; and with storage not enabled the file-host
get raises the not-enabled error instead of returning an empty or null
result, so not every read returns empty or null. -/
theorem c4_cex_unconfigured :
    saveSopToSharedAPI "" FetchRes.netErr = Except.ok false ∧
    getFileFromRepo false fxRepo "sops/a.json" = Except.error GhErr.notEnabled :=
  ⟨rfl, rfl⟩

/-- Claim C5 (amended): proxy-service round trip.  A put of document `d`
followed by a get of the id it was stored under, with no intervening
write, returns exactly `d`: the service assigns no fields into the
document.  A document without an id gets a time-based id that determines
only the target file name; the stored document itself is unchanged. -/
theorem c5_roundtrip (st : GStore) (s : Sop) (now : Nat) :
    getSop (saveSop st (JVal.doc s) now).1 (assignIdJ (JVal.doc s) now)
      = Except.ok (some s) := by
  cases hfind : st.files.find? (fun f => f.name == (assignIdJ (JVal.doc s) now ++ ".json")) with
  | some f =>
    simp only [saveSop, hfind]
    simp only [getSop]
    rw [find?_dfile_update st.files _ f (Entry.ofJVal (JVal.doc s)) hfind]
    rfl
  | none =>
    simp only [saveSop, hfind]
    simp only [getSop]
    rw [List.find?_append, hfind]
    simp [List.find?, Entry.ofJVal]

/-- Counterexample for C5: the document `fxSopNoId`, submitted without an
id at instant 42, is stored under file name `sop-42.json`, yet the stored
document returned by the subsequent get still carries no id: the assigned
id is not persisted into the stored document. -/
theorem c5_cex_id_not_persisted :
    getSop (saveSop fxStoreEmpty (JVal.doc fxSopNoId) 42).1 "sop-42"
      = Except.ok (some fxSopNoId) ∧
    fxSopNoId.meta = some ⟨none, some "Test"⟩ := ⟨rfl, rfl⟩

/-- Claim C6 (amended): listing resilience.  Entries that fail to download
or parse, parse to null, or lack the metadata envelope are skipped
individually and contribute nothing to the listing, which never fails as
a whole; when the keys derived for the successfully parsed documents are
pairwise distinct, the listing has exactly one entry per successfully
parsed document.  Two parsed documents that derive the same key collapse
to one entry, making the count smaller; see the counterexample. -/
theorem c6_listing_resilience :
    (∀ st : GStore, (validKeys (st.files.map (fun f => (f.name, f.entry)))).Nodup →
      (listSops st).length = (validKeys (st.files.map (fun f => (f.name, f.entry)))).length) ∧
    (∀ (files : List (String × Entry)) (f : String × Entry), stepKeySop f = none →
      collectSops (files ++ [f]) = collectSops files) := by
  constructor
  · intro st h
    have h0 : ((([] : List (String × Sop)).map Prod.fst)
        ++ validKeys (st.files.map (fun f => (f.name, f.entry)))).Nodup := by simpa using h
    have h1 := collect_aux (st.files.map (fun f => (f.name, f.entry))) [] h0
    have hlen : (listSops st).map Prod.fst
        = validKeys (st.files.map (fun f => (f.name, f.entry))) := by
      simpa [listSops, collectSops] using h1
    calc (listSops st).length = ((listSops st).map Prod.fst).length :=
          (List.length_map _ _).symm
      _ = (validKeys (st.files.map (fun f => (f.name, f.entry)))).length := by rw [hlen]
  · intro files f h
    unfold collectSops
    rw [List.foldl_append, List.foldl_cons, stepSop_none _ f h, List.foldl_nil]

/-- Witness for C6: a folder with two parseable documents with distinct
ids plus one corrupt file lists exactly the two documents. -/
theorem c6_listing_resilience_w :
    (listSops fxStoreList).length
      = (validKeys (fxStoreList.files.map (fun f => (f.name, f.entry)))).length :=
  c6_listing_resilience.1 fxStoreList (by decide)

/-- Counterexample for C6: two distinct parseable files that both embed id
`x` yield a listing of size 1, although 2 documents parsed successfully,
so the returned size does not always equal the number parsed. -/
theorem c6_cex_duplicate_ids :
    (collectSops fxFilesDup).length = 1 ∧ (validKeys fxFilesDup).length = 2 := ⟨rfl, rfl⟩

/-- Claim C7 (amended): for the thin-proxy adapter, a failure of the
underlying HTTP call (network error or non-2xx status) is passed through
to the caller as an error by save and by delete; load-all instead
converts any such failure into the null fall-back result rather than an
error.  See the counterexample. -/
theorem c7_failures_passed_through (base : String) (f : FetchRes)
    (hb : base ≠ "")
    (hf : f = FetchRes.netErr ∨ ∃ b, f = FetchRes.resp false b) :
    saveSopToSharedAPI base f = Except.error () ∧
    deleteSopFromSharedAPI base f = Except.error () ∧
    loadAllSopsFromSharedAPI base f = Except.ok none := by
  have hb' : (base == "") = false := beq_eq_false_iff_ne.mpr hb
  rcases hf with h | ⟨b, h⟩ <;> subst h <;>
    simp [saveSopToSharedAPI, deleteSopFromSharedAPI, loadAllSopsFromSharedAPI, hb']

/-- Witness for C7 at a concrete base URL and a network failure. -/
theorem c7_failures_passed_through_w :
    saveSopToSharedAPI "https://api.example" FetchRes.netErr = Except.error () :=
  (c7_failures_passed_through "https://api.example" FetchRes.netErr (by decide)
    (Or.inl rfl)).1

/-- Counterexample for C7: a non-2xx response on load-all is converted into
the null fall-back result instead of being passed through as an error, so
not every operation of the thin-proxy adapter passes failures through. -/
theorem c7_cex_loadall_swallows :
    loadAllSopsFromSharedAPI "https://api.example" (FetchRes.resp false JsonData.badJson)
      = Except.ok none := rfl

/-- Claim C8 (code bug): sign-out with the auth library present and a
revoke call that throws returns `false` and leaves both the in-memory
access token and the persisted token record in place, contradicting the
specified unconditional local clearing; when the revoke succeeds the
session is cleared. -/
theorem c8_bug_signout_keeps_session :
    signOutGoogleDrive true true false fxGlobalAuth fxLsExpired
      = (fxGlobalAuth, fxLsExpired, false) ∧
    fxGlobalAuth.accessToken = some "tok" ∧
    fxLsExpired.googleDriveToken = some ⟨"tok", 1000⟩ ∧
    (signOutGoogleDrive true true true fxGlobalAuth fxLsExpired).1.accessToken = none ∧
    (signOutGoogleDrive true true true fxGlobalAuth fxLsExpired).2.1.googleDriveToken
      = none := ⟨rfl, rfl, rfl, rfl, rfl⟩

/-- Claim C9 (amended): the listing key logic.  A parsed document with a
present and non-empty embedded id is keyed under that id regardless of
its file name; a document whose embedded id is absent or the empty string
falls back to the file name with its first `.json` occurrence removed;
and two parsed documents deriving the same key collapse to a single
entry, the later one winning.  See the counterexample for the
present-but-empty id. -/
theorem c9_key_logic :
    (∀ (name : String) (m : Meta) (v : String), m.sopId = some v → v ≠ "" →
      keyOf name m = v) ∧
    (∀ (name : String) (m : Meta), m.sopId = none ∨ m.sopId = some "" →
      keyOf name m = stripJson name) ∧
    (∀ (n1 n2 : String) (s1 s2 : Sop) (m1 m2 : Meta) (k : String),
      endsJson n1 = true → endsJson n2 = true →
      s1.meta = some m1 → s2.meta = some m2 →
      keyOf n1 m1 = k → keyOf n2 m2 = k →
      collectSops [(n1, Entry.doc s1), (n2, Entry.doc s2)] = [(k, s2)]) := by
  refine ⟨?_, ?_, ?_⟩
  · intro name m v hm hv
    simp [keyOf, hm, beq_eq_false_iff_ne.mpr hv]
  · intro name m hm
    rcases hm with h | h <;> simp [keyOf, h]
  · intro n1 n2 s1 s2 m1 m2 k h1 h2 hm1 hm2 hk1 hk2
    have hs1 : stepKeySop (n1, Entry.doc s1) = some (k, s1) := by
      simp [stepKeySop, h1, hm1, hk1]
    have hs2 : stepKeySop (n2, Entry.doc s2) = some (k, s2) := by
      simp [stepKeySop, h2, hm2, hk2]
    have hstep1 : stepSop [] (n1, Entry.doc s1) = [(k, s1)] := by
      unfold stepSop; rw [hs1]; simp [upsert]
    have hstep2 : stepSop [(k, s1)] (n2, Entry.doc s2) = [(k, s2)] := by
      unfold stepSop; rw [hs2]; simp [upsert]
    simp only [collectSops, List.foldl_cons, List.foldl_nil, hstep1, hstep2]

/-- Witness for C9: a non-empty embedded id wins over the file name, an
empty embedded id falls back to the file name, and two files embedding
the same id `x` collapse to one entry won by the later file. -/
theorem c9_key_logic_w :
    keyOf "f.json" ⟨some "id1", none⟩ = "id1" ∧
    keyOf "f.json" ⟨some "", none⟩ = stripJson "f.json" ∧
    collectSops [("a.json", Entry.doc fxSopB), ("b.json", Entry.doc fxSopC)]
      = [("x", fxSopC)] :=
  ⟨c9_key_logic.1 "f.json" ⟨some "id1", none⟩ "id1" rfl (by decide),
   c9_key_logic.2.1 "f.json" ⟨some "", none⟩ (Or.inr rfl),
   c9_key_logic.2.2 "a.json" "b.json" fxSopB fxSopC ⟨some "x", some "Beta"⟩
     ⟨some "x", some "Gamma"⟩ "x" (by decide) (by decide) rfl rfl (by decide) (by decide)⟩

/-- Counterexample for C9: a file whose embedded id is present but empty is
keyed under the file-name fallback `doc`, so the fallback is not used
only when the embedded id is absent. -/
theorem c9_cex_empty_id_fallback :
    collectSops [("doc.json", Entry.doc fxSopEmptyId)] = [("doc", fxSopEmptyId)] ∧
    fxSopEmptyId.meta = some ⟨some "", some "Empty"⟩ := ⟨rfl, rfl⟩

/-- Claim C10: the file-host load-all never throws: every run returns a
value.  It returns null when storage is not enabled or the repository
does not exist, the empty mapping when only the sops directory is
missing, and the empty mapping when the repository check or the directory
listing fails with any other error (per-file failures are skipped
individually inside the loop). -/
theorem c10_loadall_total (env : GithubEnv) :
    (∃ r, loadAllSopsFromGitHubRepo env = Except.ok r) ∧
    (env.enabled = false → loadAllSopsFromGitHubRepo env = Except.ok none) ∧
    (env.enabled = true → env.repoCheck = ApiResult.err404 →
      loadAllSopsFromGitHubRepo env = Except.ok none) ∧
    (env.enabled = true → env.repoCheck = ApiResult.ok () →
      env.dirListing = ApiResult.err404 →
      loadAllSopsFromGitHubRepo env = Except.ok (some [])) ∧
    (env.enabled = true → env.repoCheck = ApiResult.errOther →
      loadAllSopsFromGitHubRepo env = Except.ok (some [])) ∧
    (env.enabled = true → env.repoCheck = ApiResult.ok () →
      env.dirListing = ApiResult.errOther →
      loadAllSopsFromGitHubRepo env = Except.ok (some [])) := by
  refine ⟨?_, ?_, ?_, ?_, ?_, ?_⟩
  · cases he : env.enabled
    · exact ⟨none, by simp [loadAllSopsFromGitHubRepo, he]⟩
    · cases hb : ghLoadAllBody env with
      | ok r => exact ⟨r, by simp [loadAllSopsFromGitHubRepo, he, hb]⟩
      | error e => exact ⟨some [], by simp [loadAllSopsFromGitHubRepo, he, hb]⟩
  · intro he; simp [loadAllSopsFromGitHubRepo, he]
  · intro he hr; simp [loadAllSopsFromGitHubRepo, ghLoadAllBody, he, hr]
  · intro he hr hd; simp [loadAllSopsFromGitHubRepo, ghLoadAllBody, he, hr, hd]
  · intro he hr; simp [loadAllSopsFromGitHubRepo, ghLoadAllBody, he, hr]
  · intro he hr hd; simp [loadAllSopsFromGitHubRepo, ghLoadAllBody, he, hr, hd]

/-- Witness for C10: an enabled client whose repository does not exist yet
gets null from load-all. -/
theorem c10_loadall_total_w :
    loadAllSopsFromGitHubRepo fxGhNoRepo = Except.ok none :=
  (c10_loadall_total fxGhNoRepo).2.2.1 rfl rfl
